import Mathlib

/-!
Shallow embedding of the row-reconciliation and field-coercion core of the
`learn_import_export_celery.datasets` app (files `models.py` and `admin.py`).

Conventions of the embedding:
* Python `None` becomes `Option.none`; fallible Python code becomes
  `Except Err`.
* The record store is passed explicitly: a `List Author`, `List Category`
  or `List Book` stands for the corresponding database table, and every
  operation that may create rows returns the new store.
* `datetime.date` becomes `DateYMD` with Python's lexicographic comparison.
* Behaviour of the third-party django / django-import-export framework that
  the source calls into (widget base classes, queryset semantics, the
  per-row driver) is modelled where needed; each such definition carries a
  doc comment saying what it models.
-/

namespace ImportExportCelery

/-- Exceptions raised by the embedded code, named after the Python
exception classes that appear in the sources. -/
inductive Err where
  | validationErr (msg : String)
  | valueErr (msg : String)
  | typeErr
  | fieldErr (keyword : String)
  | doesNotExist
  | multipleObjectsReturned
deriving DecidableEq, Repr

/-- Calendar date, standing for Python `datetime.date`. -/
structure DateYMD where
  year : Nat
  month : Nat
  day : Nat
deriving DecidableEq, Repr

/-- Python compares `datetime.date` values lexicographically by
(year, month, day). -/
def DateYMD.ltb (a b : DateYMD) : Bool :=
  a.year < b.year ||
    (a.year == b.year &&
      (a.month < b.month || (a.month == b.month && a.day < b.day)))

/-- `models.Author`: per `models.py` its only declared field is `name`
(plus the implicit integer primary key, which no claim touches). -/
structure Author where
  name : String
deriving DecidableEq, Repr

/-- `models.Category`: a single `name` field. -/
structure Category where
  name : String
deriving DecidableEq, Repr

/-- `models.Book`: the fields the embedded logic reads. `published` and
`price` are nullable (`null=True` in `models.py`), `author` is a nullable
foreign key. -/
structure Book where
  name : String
  author : Option Author
  published : Option DateYMD
  price : Option Int
deriving DecidableEq, Repr

/-- Raw imported row: a Python dict from column name to cell string,
embedded as an association list with distinct keys read left to right. -/
abbrev Row : Type := List (String × String)

/-- Python `key in row` / `row[key]` combined: the value under a key,
`none` when the key is absent. -/
def rowLookup (row : Row) (k : String) : Option String :=
  (List.find? (fun kv => kv.1 = k) row).map (fun kv => kv.2)

/-- Python `row.get(key, default)`. -/
def rowGetD (row : Row) (k d : String) : String :=
  match rowLookup row k with
  | some v => v
  | none => d

/-- Python `row[key] = v` on a dict: replace the binding when the key is
present, append it otherwise. -/
def rowSet (row : Row) (k v : String) : Row :=
  match rowLookup row k with
  | some _ => List.map (fun kv => if kv.1 = k then (k, v) else kv) row
  | none => row ++ [(k, v)]

/-! SHA-256, the semantics of Python `hashlib.sha256(...).hexdigest()` used
by `BookResource.before_import_row`. Words are `Nat` values reduced modulo
`2 ^ 32`; a message is a list of byte values. -/

/-- Word arithmetic of SHA-256 is on 32-bit words. -/
def w32 : Nat := 2 ^ 32

/-- Right rotation of a 32-bit word by `n` places. -/
def rotr (n x : Nat) : Nat :=
  ((x >>> n) ||| (x <<< (32 - n))) % w32

/-- Choice function of the SHA-256 compression loop. -/
def chFn (e f g : Nat) : Nat := (e &&& f) ^^^ ((e ^^^ (w32 - 1)) &&& g)

/-- Majority function of the SHA-256 compression loop. -/
def majFn (a b c : Nat) : Nat := (a &&& b) ^^^ (a &&& c) ^^^ (b &&& c)

/-- Big sigma-0 of the compression loop. -/
def bigSigma0 (x : Nat) : Nat := rotr 2 x ^^^ rotr 13 x ^^^ rotr 22 x

/-- Big sigma-1 of the compression loop. -/
def bigSigma1 (x : Nat) : Nat := rotr 6 x ^^^ rotr 11 x ^^^ rotr 25 x

/-- Small sigma-0 of the message schedule. -/
def smallSigma0 (x : Nat) : Nat := rotr 7 x ^^^ rotr 18 x ^^^ (x >>> 3)

/-- Small sigma-1 of the message schedule. -/
def smallSigma1 (x : Nat) : Nat := rotr 17 x ^^^ rotr 19 x ^^^ (x >>> 10)

/-- Trial-division primality test, executable on the small bounds the
SHA-256 constant derivation needs. -/
def isPrimeTD (n : Nat) : Bool :=
  decide (2 ≤ n) && (((List.range n).drop 2).all (fun d => !decide (n % d = 0)))

/-- The first 64 primes, from which FIPS 180-4 derives the SHA-256
constants (the 64th prime is 311). -/
def sha256Primes : List Nat :=
  ((List.range 312).filter isPrimeTD).take 64

/-- Descending-bit refinement step of the integer cube root. -/
def icbrtAux : Nat → Nat → Nat → Nat
  | 0, _, acc => acc
  | b + 1, n, acc =>
    let c := acc + 2 ^ b
    if c * c * c ≤ n then icbrtAux b n c else icbrtAux b n acc

/-- Integer cube root (floor), by binary search over 40 bits — enough for
the arguments the constant derivation passes. -/
def icbrt (n : Nat) : Nat := icbrtAux 40 n 0

/-- First 32 fractional bits of the square root of a (non-square) number:
FIPS 180-4 initial-hash derivation. -/
def fracSqrt32 (p : Nat) : Nat := Nat.sqrt (p * 2 ^ 64) % w32

/-- First 32 fractional bits of the cube root of a (non-cube) number:
FIPS 180-4 round-constant derivation. -/
def fracCbrt32 (p : Nat) : Nat := icbrt (p * 2 ^ 96) % w32

/-- Initial hash value of SHA-256: the fractional square-root bits of the
first eight primes. -/
def sha256Init : List Nat := (sha256Primes.take 8).map fracSqrt32

/-- Round constants of SHA-256: the fractional cube-root bits of the first
64 primes. -/
def sha256K : List Nat := sha256Primes.map fracCbrt32

/-- Message padding: append the byte 0x80, then zero bytes until the length
is 56 modulo 64, then the bit length as an 8-byte big-endian integer. -/
def sha256Pad (msg : List Nat) : List Nat :=
  let zeroes := (64 - (msg.length + 1 + 8) % 64) % 64
  let bitLen := msg.length * 8
  msg ++ [0x80] ++ List.replicate zeroes 0 ++
    (List.range 8).map (fun i => (bitLen >>> ((7 - i) * 8)) % 256)

/-- Four big-endian bytes packed into one 32-bit word. -/
def word32OfBytes (b0 b1 b2 b3 : Nat) : Nat :=
  ((b0 <<< 24) ||| (b1 <<< 16) ||| (b2 <<< 8) ||| b3) % w32

/-- A 64-byte block read as sixteen big-endian 32-bit words. -/
def blockWords (block : List Nat) : List Nat :=
  (List.range 16).map (fun i =>
    word32OfBytes (block.getD (4 * i) 0) (block.getD (4 * i + 1) 0)
      (block.getD (4 * i + 2) 0) (block.getD (4 * i + 3) 0))

/-- The padded message cut into its 64-byte blocks. -/
def sha256Blocks (padded : List Nat) : List (List Nat) :=
  (List.range (padded.length / 64)).map
    (fun i => (padded.drop (64 * i)).take 64)

/-- Message-schedule extension: the 16 block words extended to 64 words. -/
def sha256Schedule (ws : List Nat) : List Nat :=
  (List.range 48).foldl
    (fun w _ =>
      let n := w.length
      w ++ [(smallSigma1 (w.getD (n - 2) 0) + w.getD (n - 7) 0 +
             smallSigma0 (w.getD (n - 15) 0) + w.getD (n - 16) 0) % w32])
    ws

/-- One round of the SHA-256 compression loop on the eight-word state. -/
def sha256Round (st : List Nat) (kw : Nat × Nat) : List Nat :=
  let a := st.getD 0 0
  let b := st.getD 1 0
  let c := st.getD 2 0
  let d := st.getD 3 0
  let e := st.getD 4 0
  let f := st.getD 5 0
  let g := st.getD 6 0
  let h := st.getD 7 0
  let t1 := (h + bigSigma1 e + chFn e f g + kw.1 + kw.2) % w32
  let t2 := (bigSigma0 a + majFn a b c) % w32
  [(t1 + t2) % w32, a, b, c, (d + t1) % w32, e, f, g]

/-- Compression of one 64-byte block into the running hash. -/
def sha256Compress (hash : List Nat) (block : List Nat) : List Nat :=
  let ws := sha256Schedule (blockWords block)
  let st := (sha256K.zip ws).foldl sha256Round hash
  List.zipWith (fun x y => (x + y) % w32) hash st

/-- SHA-256 digest of a byte list, as the 32 digest bytes. -/
def sha256Bytes (msg : List Nat) : List Nat :=
  let final := (sha256Blocks (sha256Pad msg)).foldl sha256Compress sha256Init
  final.foldr (fun wd acc =>
    (List.range 4).map (fun i => (wd >>> ((3 - i) * 8)) % 256) ++ acc) []

/-- Lowercase hexadecimal digit of a value below 16. -/
def hexDigit (n : Nat) : Char :=
  if n < 10 then Char.ofNat (48 + n) else Char.ofNat (87 + n)

/-- Lowercase hexadecimal rendering of a byte list, two digits per byte:
Python `hexdigest()`. -/
def hexOfBytes (bs : List Nat) : String :=
  String.mk (bs.foldr (fun b acc => hexDigit (b / 16) :: hexDigit (b % 16) :: acc) [])

/-- UTF-8 bytes of a string, as byte values: Python `str.encode()`. -/
def utf8Bytes (s : String) : List Nat :=
  s.toUTF8.toList.map (fun b => b.toNat)

/-- Python `hashlib.sha256(s.encode()).hexdigest()`. -/
def sha256HexOfString (s : String) : String :=
  hexOfBytes (sha256Bytes (utf8Bytes s))

/-! Field coercion widgets of `admin.py`. -/

/-- Modelled framework behaviour: `import_export.widgets.IntegerWidget.clean`
is not under `src/`; per the spec it parses the cell as an integer and maps
empty input to null. An unparseable non-empty cell raises. -/
def integerWidgetClean (value : String) : Except Err (Option Int) :=
  if value = "" then .ok none
  else
    match value.toInt? with
    | some n => .ok (some n)
    | none => .error (.valueErr "invalid literal")

/-- `PositiveIntegerWidget.clean` (admin.py lines 32-38): delegate to the
integer widget, then raise `ValueError` on a non-null negative value. -/
def positiveIntegerWidgetClean (value : String) : Except Err (Option Int) := do
  let val ← integerWidgetClean value
  match val with
  | some n => if n < 0 then .error (.valueErr "value must be positive") else .ok (some n)
  | none => .ok none

/-- Stage wrapper making explicit that price coercion never touches the
record store: the source `clean` issues no database operation. -/
def coercePriceStage (books : List Book) (value : String) :
    List Book × Except Err (Option Int) :=
  (books, positiveIntegerWidgetClean value)

/-- Keywords that Django can resolve on `Author` querysets: the model's
concrete fields per `models.py` (`id` implicit, `name`), and the reverse
accessor `book` contributed by `Book.author`. -/
def authorQueryKeywords : List String := ["id", "name", "book"]

/-- Modelled framework behaviour: Django `Author.objects.filter(kw=v)`
resolves the keyword against the model's fields and raises `FieldError`
when it cannot; otherwise it returns the matching rows. -/
def authorFilterByKeyword (store : List Author) (kw : String)
    (pred : Author → Bool) : Except Err (List Author) :=
  if authorQueryKeywords.contains kw then .ok (store.filter pred)
  else .error (.fieldErr kw)

/-- `AuthorForeignKeyWidget.get_queryset` (admin.py lines 62-63):
`Author.objects.filter(publisher_id=self.publisher_id)`. The keyword is
`publisher_id`; the predicate argument is irrelevant because `Author` has
no such field, so resolution fails. -/
def authorGetQueryset (store : List Author) (_publisherId : Option Nat) :
    Except Err (List Author) :=
  authorFilterByKeyword store "publisher_id" (fun _ => true)

/-- Modelled framework behaviour: `QuerySet.get(name=value)` — exactly one
match, else `DoesNotExist` / `MultipleObjectsReturned`. -/
def querysetGetByName (authors : List Author) (value : String) :
    Except Err Author :=
  match authors.filter (fun a => a.name = value) with
  | [] => .error .doesNotExist
  | [a] => .ok a
  | _ => .error .multipleObjectsReturned

/-- Modelled framework behaviour: `ForeignKeyWidget.clean` for a non-empty
cell runs `self.get_queryset(value, row).get(**{self.field: value})`. -/
def foreignKeyWidgetClean (store : List Author) (publisherId : Option Nat)
    (value : String) : Except Err Author := do
  let qs ← authorGetQueryset store publisherId
  querysetGetByName qs value

/-- Modelled framework behaviour: Django `get_or_create(name=k)` — `get`
the unique row, create it on `DoesNotExist`, propagate
`MultipleObjectsReturned`. -/
def getOrCreateAuthor (store : List Author) (k : String) :
    List Author × Except Err Author :=
  match querysetGetByName store k with
  | .ok a => (store, .ok a)
  | .error .doesNotExist => (store ++ [⟨k⟩], .ok ⟨k⟩)
  | .error e => (store, .error e)

/-- `AuthorForeignKeyWidget.clean` (admin.py lines 66-81): empty cell →
`get_or_create(name="NA")`; non-empty cell → the base lookup, creating
`Author(name=value)` only on `Author.DoesNotExist`; any other exception
propagates. Returns the (possibly grown) author table with the result. -/
def authorWidgetClean (publisherId : Option Nat) (store : List Author)
    (value : String) : List Author × Except Err Author :=
  if value = "" then getOrCreateAuthor store "NA"
  else
    match foreignKeyWidgetClean store publisherId value with
    | .ok a => (store, .ok a)
    | .error .doesNotExist => (store ++ [⟨value⟩], .ok ⟨value⟩)
    | .error e => (store, .error e)

/-- Modelled from the spec: rows of one batch are processed strictly
sequentially (spec section 5), each row coercing its author cell through
the widget; the driver records each per-row result. -/
def runAuthorBatch (publisherId : Option Nat) (store : List Author)
    (cells : List String) : List Author × List (Except Err Author) :=
  cells.foldl
    (fun acc cell =>
      let (s, r) := authorWidgetClean publisherId acc.1 cell
      (s, acc.2 ++ [r]))
    (store, [])

/-- Authors of a given name present in the store. -/
def countAuthorsNamed (store : List Author) (k : String) : Nat :=
  (store.filter (fun a => a.name = k)).length

/-! Multi-valued categories coercion. The `BookResource.categories` field
(admin.py lines 151-152) configures a many-to-many widget on `Category`,
keyed by `name`, with separator the vertical bar. -/

/-- Split of a character list at every occurrence of the separator. -/
def splitOnChar (sep : Char) : List Char → List (List Char)
  | [] => [[]]
  | x :: xs =>
    match splitOnChar sep xs with
    | [] => if x = sep then [[], []] else [[x]]
    | h :: t => if x = sep then [] :: h :: t else (x :: h) :: t

/-- Leading and trailing whitespace removed from a character list:
Python `str.strip()`. -/
def trimChars (cs : List Char) : List Char :=
  ((cs.dropWhile Char.isWhitespace).reverse.dropWhile Char.isWhitespace).reverse

/-- Trimmed non-empty tokens of a categories cell, split on the configured
separator character. -/
def categoryTokens (sep : Char) (value : String) : List String :=
  (((splitOnChar sep value.toList).map
      (fun cs => String.mk (trimChars cs))).filter (fun t => t ≠ ""))

/-- Lookup-or-create of one category by natural key. -/
def lookupOrCreateCategory (store : List Category) (k : String) :
    List Category × Category :=
  match store.filter (fun c => c.name = k) with
  | [] => (store ++ [⟨k⟩], ⟨k⟩)
  | c :: _ => (store, c)

/-- Resolution of one more token into the accumulated (store, references)
pair of the multi-valued widget. -/
def categoriesFoldStep (acc : List Category × List Category) (t : String) :
    List Category × List Category :=
  ((lookupOrCreateCategory acc.1 t).1, acc.2 ++ [(lookupOrCreateCategory acc.1 t).2])

/-- Modelled from the spec: the many-to-many widget `clean` of
django-import-export is not under `src/`; per the spec it splits the cell
on the separator into trimmed tokens, resolves each token independently by
lookup-or-create against the category set, collapses duplicate tokens to
one reference, and maps empty input to the empty set. -/
def manyToManyWidgetClean (sep : Char) (store : List Category)
    (value : String) : List Category × List Category :=
  if value = "" then (store, [])
  else
    let acc := (categoryTokens sep value).foldl categoriesFoldStep (store, [])
    (acc.1, acc.2.dedup)

/-! Whole-record validation: `Book.full_clean` (models.py lines 45-52). -/

/-- Epoch floor of the out-of-print check: `date(1900, 1, 1)`. -/
def epochFloor : DateYMD := ⟨1900, 1, 1⟩

/-- Modelled framework behaviour: Django `Model.full_clean` field
validation for `Book` — `name` is a `CharField` with `max_length=100` and
no `blank=True`, so it must be non-empty and at most 100 characters; every
other field of the model is nullable or blank-allowed. -/
def djangoBaseFullClean (b : Book) : Except Err Unit :=
  if b.name = "" then .error (.validationErr "name: field cannot be blank")
  else if b.name.length > 100 then .error (.validationErr "name: too long")
  else .ok ()

/-- `Book.full_clean` override: after base validation it evaluates
`self.published < date(1900, 1, 1)` unconditionally — in Python a `None`
date makes that comparison raise `TypeError` — and then rejects the
denylisted name. The raised `ValidationError` is the one imported at the
top of `models.py` (from `jsonschema.exceptions`). -/
def bookFullClean (b : Book) : Except Err Unit := do
  djangoBaseFullClean b
  match b.published with
  | none => .error .typeErr
  | some d =>
    if DateYMD.ltb d epochFloor then .error (.validationErr "book is out of print")
    else if b.name = "Ulysses" then .error (.validationErr "book has been banned")
    else .ok ()

/-- True exactly for the errors raised as `ValidationError`. -/
def Err.isValidationErr : Err → Bool
  | .validationErr _ => true
  | _ => false

/-- Stage wrapper making explicit that whole-record validation never
touches the record store: `full_clean` only reads the instance. -/
def validateRecordStage (books : List Book) (b : Book) :
    List Book × Except Err Unit :=
  (books, bookFullClean b)

/-! Row hooks of `BookResource` (admin.py). -/

/-- `BookResource.before_import_row` (admin.py lines 123-127): raise
`ValueError` when the `name` column is absent or holds a falsy (empty)
value, else store the SHA-256 hex digest of the name under `hash_id`. -/
def beforeImportRow (row : Row) : Except Err Row :=
  match rowLookup row "name" with
  | none => .error (.valueErr "Row missing name column or value.")
  | some v =>
    if v = "" then .error (.valueErr "Row missing name column or value.")
    else .ok (rowSet row "hash_id" (sha256HexOfString v))

/-- Outcome of one row as the reconciliation driver records it. -/
inductive RowOutcome where
  | failed (e : Err)
  | proceeded (row : Row)
deriving DecidableEq, Repr

/-- Modelled from the spec: the per-row driver of django-import-export is
not under `src/`; per spec step 1 an exception raised by the presence check
marks the row `Failed` and applies no mutation to the record store. -/
def presenceCheckStage (books : List Book) (row : Row) :
    List Book × RowOutcome :=
  match beforeImportRow row with
  | .error e => (books, .failed e)
  | .ok r => (books, .proceeded r)

/-- Action taken by `BookResource.after_import_row`. -/
inductive HookAction where
  | notify (bookName : String)
  | warn (bookName : String) (raw : String)
  | debug
deriving DecidableEq, Repr

/-- `BookResource.after_import_row` (admin.py lines 155-180): notify when
`original` exists with `published` unset and `instance` exists with
`published` set; otherwise warn when `instance` exists with `published`
unset, reporting `row.get("published_field", "NOT_FOUND")`; otherwise log
debug output. `hasattr(instance, "published")` always holds on `Book`. -/
def afterImportRow (row : Row) (original inst : Option Book) :
    HookAction :=
  match original, inst with
  | some o, some i =>
    if o.published.isNone && i.published.isSome then .notify i.name
    else if i.published.isNone then .warn i.name (rowGetD row "published_field" "NOT_FOUND")
    else .debug
  | none, some i =>
    if i.published.isNone then .warn i.name (rowGetD row "published_field" "NOT_FOUND")
    else .debug
  | _, none => .debug

/-- True exactly for the notify action. -/
def HookAction.isNotify : HookAction → Bool
  | .notify _ => true
  | _ => false

/-- True exactly for the warn action. -/
def HookAction.isWarn : HookAction → Bool
  | .warn _ _ => true
  | _ => false

/-! Theorems. -/

/-- Claim C1 (evidence of the code bug): a batch of two rows carrying the
same unseen author name, run against an empty author table with the
publisher filter the resource default passes (`None`), creates no Author
at all: every non-empty lookup dies with `FieldError` because `Author` has
no `publisher_id` field, so afterward zero — not one — authors of that
name exist. -/
theorem duplicateAuthorBatch_createsNothing :
    runAuthorBatch none [] ["Frank Herbert", "Frank Herbert"] =
      ([], [.error (.fieldErr "publisher_id"), .error (.fieldErr "publisher_id")]) ∧
    countAuthorsNamed (runAuthorBatch none [] ["Frank Herbert", "Frank Herbert"]).1
      "Frank Herbert" = 0 := by
  constructor <;> rfl

/-- Claim C7: price coercion maps the empty cell to null, fails with the
constraint-violation error on a parsed negative value and returns a parsed
non-negative value, leaving the book store untouched in every case. -/
theorem priceCoercion_cases (books : List Book) (s : String) :
    (s = "" → coercePriceStage books s = (books, .ok none)) ∧
    ∀ n : Int, s.toInt? = some n →
      coercePriceStage books s =
        (books, if n < 0 then .error (.valueErr "value must be positive")
                else .ok (some n)) := by
  constructor
  · intro hs
    subst hs
    rfl
  · intro n hn
    have hs : ¬s = "" := by
      intro h
      subst h
      have : ("" : String).toInt? = none := by decide
      rw [this] at hn
      exact Option.noConfusion hn
    simp only [coercePriceStage, positiveIntegerWidgetClean, integerWidgetClean,
      if_neg hs, hn]
    rfl

/-- Claim C8: a raw row whose `name` column is absent or empty makes the
presence check raise `ValueError`; the driver marks the row failed and the
book store is unchanged. -/
theorem presenceCheck_missing_name_fails (books : List Book) (row : Row)
    (h : rowLookup row "name" = none ∨ rowLookup row "name" = some "") :
    presenceCheckStage books row =
      (books, .failed (.valueErr "Row missing name column or value.")) := by
  rcases h with h | h <;>
    simp [presenceCheckStage, beforeImportRow, h]

/-- Witness for claim C8 at the concrete row that has only a price cell. -/
theorem presenceCheck_missing_name_witness :
    presenceCheckStage [] [("price", "3")] =
      ([], .failed (.valueErr "Row missing name column or value.")) :=
  presenceCheck_missing_name_fails [] [("price", "3")] (Or.inl (by decide))

/-- Helper: on a store holding at most one author of key `k`,
`get_or_create` returns that author (creating it when absent), leaves
exactly one author of key `k`, and a second run returns the same author
without growing the store. -/
theorem getOrCreateAuthor_spec (store : List Author) (k : String)
    (h : countAuthorsNamed store k ≤ 1) :
    (getOrCreateAuthor store k).2 = .ok ⟨k⟩ ∧
    countAuthorsNamed (getOrCreateAuthor store k).1 k = 1 ∧
    getOrCreateAuthor (getOrCreateAuthor store k).1 k =
      ((getOrCreateAuthor store k).1, .ok ⟨k⟩) := by
  unfold countAuthorsNamed at h ⊢
  cases hf : store.filter (fun a => a.name = k) with
  | nil =>
    have hq : querysetGetByName store k = .error .doesNotExist := by
      simp [querysetGetByName, hf]
    have hgoc : getOrCreateAuthor store k = (store ++ [Author.mk k], .ok (Author.mk k)) := by
      simp [getOrCreateAuthor, hq]
    have hcount : (store ++ [Author.mk k]).filter (fun a => a.name = k) = [Author.mk k] := by
      rw [List.filter_append, hf]
      simp
    have hq2 : querysetGetByName (store ++ [Author.mk k]) k = .ok (Author.mk k) := by
      simp [querysetGetByName, hcount]
    refine ⟨by rw [hgoc], by rw [hgoc]; rw [hcount]; rfl, ?_⟩
    rw [hgoc]
    simp [getOrCreateAuthor, hq2]
  | cons a rest =>
    have hmem : a ∈ store.filter (fun a => a.name = k) := by
      rw [hf]
      exact List.mem_cons_self a rest
    have hname : a.name = k := by
      simpa using (List.mem_filter.mp hmem).2
    have hrest : rest = [] := by
      rw [hf] at h
      simp only [List.length_cons] at h
      exact List.eq_nil_of_length_eq_zero (Nat.le_zero.mp (Nat.le_of_succ_le_succ h))
    have ha : a = ⟨k⟩ := by
      cases a
      simpa using hname
    subst hrest ha
    have hq : querysetGetByName store k = .ok ⟨k⟩ := by
      simp [querysetGetByName, hf]
    have hgoc : getOrCreateAuthor store k = (store, .ok ⟨k⟩) := by
      simp [getOrCreateAuthor, hq]
    refine ⟨by rw [hgoc], by rw [hgoc]; simp [hf], ?_⟩
    rw [hgoc]
    simp [getOrCreateAuthor, hq]

/-- Claim C2: an empty author cell resolves to the default author `NA`,
creating it only when absent; after one run exactly one `NA` author
exists, and a second run returns the same author without touching the
store (the lookup-or-create is idempotent). -/
theorem defaultAuthorNA_idempotent (pid : Option Nat) (store : List Author)
    (h : countAuthorsNamed store "NA" ≤ 1) :
    (authorWidgetClean pid store "").2 = .ok ⟨"NA"⟩ ∧
    countAuthorsNamed (authorWidgetClean pid store "").1 "NA" = 1 ∧
    authorWidgetClean pid (authorWidgetClean pid store "").1 "" =
      ((authorWidgetClean pid store "").1, .ok ⟨"NA"⟩) := by
  have hclean : ∀ s : List Author,
      authorWidgetClean pid s "" = getOrCreateAuthor s "NA" := by
    intro s
    simp [authorWidgetClean]
  rcases getOrCreateAuthor_spec store "NA" h with ⟨h1, h2, h3⟩
  rw [hclean, hclean]
  exact ⟨h1, h2, h3⟩

/-- Witness for claim C2 at the empty store and the resource's default
publisher filter. -/
theorem defaultAuthorNA_witness :
    (authorWidgetClean none [] "").2 = .ok ⟨"NA"⟩ ∧
    countAuthorsNamed (authorWidgetClean none [] "").1 "NA" = 1 ∧
    authorWidgetClean none (authorWidgetClean none [] "").1 "" =
      ((authorWidgetClean none [] "").1, .ok ⟨"NA"⟩) :=
  defaultAuthorNA_idempotent none [] (by decide)

/-- Helper: the reference a token resolves to always carries the token as
its name, whether found or created. -/
theorem lookupOrCreateCategory_snd (s : List Category) (t : String) :
    (lookupOrCreateCategory s t).2 = Category.mk t := by
  unfold lookupOrCreateCategory
  split
  · rfl
  next c rest heq =>
    have hc : c ∈ s.filter (fun c => c.name = t) := by
      rw [heq]
      exact List.mem_cons_self c rest
    have hname : c.name = t := by simpa using (List.mem_filter.mp hc).2
    cases c
    simpa using hname

/-- Helper: after resolving a token, a category named by the token is in
the store. -/
theorem lookupOrCreateCategory_mem (s : List Category) (t : String) :
    Category.mk t ∈ (lookupOrCreateCategory s t).1 := by
  unfold lookupOrCreateCategory
  split
  · simp
  next c rest heq =>
    have hc : c ∈ s.filter (fun c => c.name = t) := by
      rw [heq]
      exact List.mem_cons_self c rest
    have hname : c.name = t := by simpa using (List.mem_filter.mp hc).2
    have hcs : c ∈ s := (List.mem_filter.mp hc).1
    have : Category.mk t = c := by
      cases c
      simpa using hname.symm
    simpa [this]

/-- Helper: resolving a token never removes categories from the store. -/
theorem lookupOrCreateCategory_mono (s : List Category) (t : String)
    {x : Category} (hx : x ∈ s) : x ∈ (lookupOrCreateCategory s t).1 := by
  unfold lookupOrCreateCategory
  split
  · exact List.mem_append_left _ hx
  · exact hx

/-- Helper: the references accumulated by the categories fold are exactly
the tokens, in order, one category reference per token. -/
theorem categoriesFold_snd (ts : List String) :
    ∀ (s : List Category) (acc : List Category),
      (ts.foldl categoriesFoldStep (s, acc)).2 = acc ++ ts.map Category.mk := by
  induction ts with
  | nil =>
    intro s acc
    simp
  | cons t ts ih =>
    intro s acc
    rw [List.foldl_cons]
    have hstep : categoriesFoldStep (s, acc) t =
        ((lookupOrCreateCategory s t).1, acc ++ [Category.mk t]) := by
      simp [categoriesFoldStep, lookupOrCreateCategory_snd]
    rw [hstep, ih]
    simp

/-- Helper: the categories fold only grows the store. -/
theorem categoriesFold_store_mono (ts : List String) :
    ∀ (s : List Category) (acc : List Category) (x : Category), x ∈ s →
      x ∈ (ts.foldl categoriesFoldStep (s, acc)).1 := by
  induction ts with
  | nil =>
    intro s acc x hx
    simpa using hx
  | cons t ts ih =>
    intro s acc x hx
    rw [List.foldl_cons]
    exact ih _ _ x (lookupOrCreateCategory_mono s t hx)

/-- Helper: every token of the fold ends with a category of its name in
the store. -/
theorem categoriesFold_store_mem (ts : List String) :
    ∀ (s : List Category) (acc : List Category) (t : String), t ∈ ts →
      Category.mk t ∈ (ts.foldl categoriesFoldStep (s, acc)).1 := by
  induction ts with
  | nil =>
    intro s acc t ht
    cases ht
  | cons u ts ih =>
    intro s acc t ht
    rw [List.foldl_cons]
    rcases List.mem_cons.mp ht with h | h
    · subst h
      apply categoriesFold_store_mono
      exact lookupOrCreateCategory_mem s t
    · exact ih _ _ t h

/-- Helper: `Category.mk` is injective. -/
theorem categoryMk_injective : Function.Injective Category.mk := by
  intro a b h
  injection h

/-- Claim C3: the categories cell is split on the configured vertical-bar
separator into trimmed tokens; the references produced are exactly the
distinct tokens (duplicates collapse, no duplicate references remain),
every token ends up as a category of that name in the store, and empty
input yields the empty reference set with the store untouched. -/
theorem categoriesClean_splits_dedups (store : List Category) (v : String) :
    (v = "" → manyToManyWidgetClean '|' store v = (store, [])) ∧
    (manyToManyWidgetClean '|' store v).2 =
      ((categoryTokens '|' v).dedup).map Category.mk ∧
    ((manyToManyWidgetClean '|' store v).2).Nodup ∧
    ∀ t ∈ categoryTokens '|' v,
      Category.mk t ∈ (manyToManyWidgetClean '|' store v).1 := by
  by_cases hv : v = ""
  · subst hv
    have htok : categoryTokens '|' "" = [] := by decide
    refine ⟨fun _ => rfl, by rw [htok]; rfl, by rw [show (manyToManyWidgetClean '|' store "").2 = [] from rfl]; exact List.nodup_nil, ?_⟩
    intro t ht
    rw [htok] at ht
    cases ht
  · have hm : manyToManyWidgetClean '|' store v =
        (((categoryTokens '|' v).foldl categoriesFoldStep (store, [])).1,
         ((categoryTokens '|' v).foldl categoriesFoldStep (store, [])).2.dedup) := by
      simp [manyToManyWidgetClean, hv]
    refine ⟨fun h => absurd h hv, ?_, ?_, ?_⟩
    · rw [hm]
      rw [categoriesFold_snd]
      simp [List.dedup_map_of_injective categoryMk_injective]
    · rw [hm]
      exact List.nodup_dedup _
    · intro t ht
      rw [hm]
      exact categoriesFold_store_mem _ _ _ t ht

/-- Claim C4 counterexample: the denylisted record whose published date is
unset is rejected by a `TypeError` from the unguarded date comparison, not
by a `ValidationError` — the denylist check is never reached. -/
theorem fullClean_ulysses_nullDate_not_validation :
    bookFullClean ⟨"Ulysses", none, none, none⟩ = .error .typeErr ∧
    Err.isValidationErr .typeErr = false :=
  ⟨rfl, rfl⟩

/-- Claim C4 as amended: on a candidate record whose published date is set,
whole-record validation rejects with a `ValidationError` every record whose
date precedes the epoch floor and every record carrying the denylisted
name, and the record store is untouched. -/
theorem fullClean_rejects_floor_and_denylist (books : List Book) (b : Book)
    (d : DateYMD) (h1 : b.published = some d)
    (h2 : DateYMD.ltb d epochFloor = true ∨ b.name = "Ulysses") :
    (∃ m, bookFullClean b = .error (.validationErr m)) ∧
    (validateRecordStage books b).1 = books := by
  refine ⟨?_, rfl⟩
  by_cases hb : b.name = ""
  · exact ⟨"name: field cannot be blank", by simp [bookFullClean, Bind.bind, Except.bind, djangoBaseFullClean, hb]⟩
  · by_cases hl : b.name.length > 100
    · exact ⟨"name: too long", by simp [bookFullClean, Bind.bind, Except.bind, djangoBaseFullClean, hb, hl]⟩
    · have hbase : djangoBaseFullClean b = .ok () := by
        simp [djangoBaseFullClean, hb, hl]
      rcases h2 with h2 | h2
      · exact ⟨"book is out of print", by simp [bookFullClean, Bind.bind, Except.bind, hbase, h1, h2]⟩
      · by_cases hd : DateYMD.ltb d epochFloor = true
        · exact ⟨"book is out of print", by simp [bookFullClean, Bind.bind, Except.bind, hbase, h1, hd]⟩
        · exact ⟨"book has been banned", by simp [bookFullClean, Bind.bind, Except.bind, hbase, h1, hd, h2]⟩

/-- Witness for the amended claim C4 at the spec scenario row, a record
dated 1850-01-01. -/
theorem fullClean_rejects_witness :
    (∃ m, bookFullClean ⟨"X", none, some ⟨1850, 1, 1⟩, none⟩ =
      .error (.validationErr m)) ∧
    (validateRecordStage [] ⟨"X", none, some ⟨1850, 1, 1⟩, none⟩).1 = [] :=
  fullClean_rejects_floor_and_denylist [] ⟨"X", none, some ⟨1850, 1, 1⟩, none⟩
    ⟨1850, 1, 1⟩ rfl (Or.inl (by decide))

/-- Claim C10: a record whose published date is unset can never pass
whole-record validation — when the framework field checks succeed, the
unguarded comparison of the null date with the epoch floor raises
`TypeError`, so the denylist check is never reached. -/
theorem fullClean_nullDate_cannot_succeed (b : Book)
    (h : b.published = none) :
    bookFullClean b ≠ .ok () ∧
    (djangoBaseFullClean b = .ok () → bookFullClean b = .error .typeErr) := by
  constructor
  · intro hc
    cases hbase : djangoBaseFullClean b with
    | error e => simp [bookFullClean, Bind.bind, Except.bind, hbase] at hc
    | ok u => simp [bookFullClean, Bind.bind, Except.bind, hbase, h] at hc
  · intro hbase
    simp [bookFullClean, Bind.bind, Except.bind, hbase, h]

/-- Witness for claim C10 at the denylisted record with unset date. -/
theorem fullClean_nullDate_witness :
    bookFullClean ⟨"Ulysses", none, none, none⟩ ≠ .ok () ∧
    (djangoBaseFullClean ⟨"Ulysses", none, none, none⟩ = .ok () →
      bookFullClean ⟨"Ulysses", none, none, none⟩ = .error .typeErr) :=
  fullClean_nullDate_cannot_succeed ⟨"Ulysses", none, none, none⟩ rfl

/-- Claim C5: the post-import hook fires the notification exactly when a
previous snapshot existed with its published date unset and the persisted
snapshot exists with its published date set. -/
theorem afterImportRow_notify_iff (row : Row) (original inst : Option Book) :
    (afterImportRow row original inst).isNotify = true ↔
      ((∃ o, original = some o ∧ o.published = none) ∧
       (∃ i, inst = some i ∧ ∃ d, i.published = some d)) := by
  cases original with
  | none =>
    cases inst with
    | none => simp [afterImportRow, HookAction.isNotify]
    | some i =>
      cases hi : i.published <;>
        simp [afterImportRow, hi, HookAction.isNotify]
  | some o =>
    cases inst with
    | none => simp [afterImportRow, HookAction.isNotify]
    | some i =>
      cases ho : o.published <;> cases hi : i.published <;>
        simp [afterImportRow, ho, hi, HookAction.isNotify]

/-- Claim C6 counterexample: a row whose persisted snapshot has the
published date set and whose raw trigger value sits under the actual
column header (`published_date`, not the expected `published_field`) gets
no diagnostic warning — the hook takes the debug branch. -/
theorem afterImportRow_setDate_no_warn :
    (afterImportRow [("name", "Dune"), ("published_date", "1965-08-01")]
        none (some ⟨"Dune", none, some ⟨1965, 8, 1⟩, none⟩)).isWarn = false ∧
    afterImportRow [("name", "Dune"), ("published_date", "1965-08-01")]
        none (some ⟨"Dune", none, some ⟨1965, 8, 1⟩, none⟩) = .debug :=
  ⟨rfl, rfl⟩

/-- Claim C6 as amended: the hook warns exactly when the persisted
snapshot exists with its published date unset, and because it reads the
raw value under the key `published_field` — never the actual header
`published_date` — a row without that key makes it report the fallback
`NOT_FOUND`. -/
theorem afterImportRow_warn_iff_unset (row : Row) (original : Option Book)
    (b : Book) :
    ((afterImportRow row original (some b)).isWarn = true ↔
      b.published = none) ∧
    (b.published = none → rowLookup row "published_field" = none →
      afterImportRow row original (some b) = .warn b.name "NOT_FOUND") := by
  constructor
  · cases original with
    | none =>
      cases hb : b.published <;> simp [afterImportRow, hb, HookAction.isWarn]
    | some o =>
      cases ho : o.published <;> cases hb : b.published <;>
        simp [afterImportRow, ho, hb, HookAction.isWarn]
  · intro hb hrow
    have hget : rowGetD row "published_field" "NOT_FOUND" = "NOT_FOUND" := by
      simp [rowGetD, hrow]
    cases original with
    | none => simp [afterImportRow, hb, hget]
    | some o =>
      cases ho : o.published <;> simp [afterImportRow, ho, hb, hget]

/-- Helper: reading a key back right after writing it returns the value
just written. -/
theorem rowLookup_rowSet_self (row : Row) (k v : String) :
    rowLookup (rowSet row k v) k = some v := by
  unfold rowSet
  cases h : rowLookup row k with
  | none =>
    induction row with
    | nil => simp [rowLookup]
    | cons kv rest ih =>
      have hk : ¬kv.1 = k := by
        intro hkv
        simp [rowLookup, List.find?, hkv] at h
      have hrest : rowLookup rest k = none := by
        simpa [rowLookup, List.find?, hk] using h
      simpa [rowLookup, List.find?, hk] using ih hrest
  | some w =>
    induction row with
    | nil => simp [rowLookup] at h
    | cons kv rest ih =>
      by_cases hk : kv.1 = k
      · simp [rowLookup, List.find?, hk]
      · have hrest : rowLookup rest k = some w := by
          simpa [rowLookup, List.find?, hk] using h
        simpa [rowLookup, List.find?, hk] using ih hrest

/-- Claim C9: for every row passing the presence check the derived
identity key stored under `hash_id` is the SHA-256 hex digest of the UTF-8
bytes of the `name` value, and the derivation is deterministic: two rows
with equal names derive equal identity keys. -/
theorem hashId_sha256_deterministic (r1 r2 : Row) (v1 v2 : String)
    (h1 : rowLookup r1 "name" = some v1) (h1e : v1 ≠ "")
    (h2 : rowLookup r2 "name" = some v2) (h2e : v2 ≠ "") :
    beforeImportRow r1 = .ok (rowSet r1 "hash_id" (sha256HexOfString v1)) ∧
    rowLookup (rowSet r1 "hash_id" (sha256HexOfString v1)) "hash_id" =
      some (hexOfBytes (sha256Bytes (utf8Bytes v1))) ∧
    (v1 = v2 →
      rowLookup (rowSet r1 "hash_id" (sha256HexOfString v1)) "hash_id" =
        rowLookup (rowSet r2 "hash_id" (sha256HexOfString v2)) "hash_id") := by
  refine ⟨by simp [beforeImportRow, h1, h1e], rowLookup_rowSet_self r1 _ _, ?_⟩
  intro he
  subst he
  rw [rowLookup_rowSet_self, rowLookup_rowSet_self]

/-- Witness for claim C9 at two concrete rows naming the same book. -/
theorem hashId_sha256_witness :
    beforeImportRow [("name", "Dune")] =
      .ok (rowSet [("name", "Dune")] "hash_id" (sha256HexOfString "Dune")) ∧
    rowLookup (rowSet [("name", "Dune")] "hash_id" (sha256HexOfString "Dune"))
        "hash_id" = some (hexOfBytes (sha256Bytes (utf8Bytes "Dune"))) ∧
    ("Dune" = "Dune" →
      rowLookup (rowSet [("name", "Dune")] "hash_id" (sha256HexOfString "Dune"))
          "hash_id" =
        rowLookup (rowSet [("name", "Dune"), ("price", "7")] "hash_id"
            (sha256HexOfString "Dune")) "hash_id") :=
  hashId_sha256_deterministic [("name", "Dune")] [("name", "Dune"), ("price", "7")]
    "Dune" "Dune" (by decide) (by decide) (by decide) (by decide)

end ImportExportCelery
